import Mathlib

/-!
Verification development for `simulated-data/create_metagenomes.py`.

The script samples reads (4-line FASTQ records) from per-organism read files
and concatenates them into metagenome artifacts according to abundance
ratios.  We embed the core engine — `count_reads_in_file`, `sample_reads`
and `create_metagenome` — as pure Lean functions.

Modelling decisions:
* a FASTQ file is its list of lines (`List String`);
* Python's global `random` generator is modelled by an explicit `RngState`
  threaded through the functions; `random.seed` and `random.randint` are
  modelled by a concrete deterministic generator (a linear congruential
  step).  Every property proved below depends only on the generator being a
  deterministic function of the seed and on `randint 0 (n-1)` returning a
  value `< n`, not on the exact pseudorandom stream of CPython's Mersenne
  twister;
* the Python `while` loop of `sample_reads` is totalised with an explicit
  `fuel` parameter; all invariants proved hold for every fuel value;
* Python `int(total_reads * ratio)` (binary float multiply, truncate) is
  modelled twice: bit-exactly by `pyGroupReads`, which implements IEEE-754
  binary64 rounding (round half to even) on dyadic rationals, and in
  idealized form by `groupReads`, the floor of the exact rational product
  as the spec describes it.  The two can differ — `int(90 * 0.7)` is 62 in
  binary64 while `floor(90 * 7/10)` is 63 (see C5) — so the bit-exact model
  settles the float-semantics question; the composer embedding
  `create_metagenome` uses the idealized `groupReads`, and every theorem
  about `create_metagenome` below exercises only ratio values (1.0, 0.0)
  at which binary64 evaluation is exact, so the idealization is faithful
  exactly where it is relied upon;
* the file system is abstracted away: writing lines to a file and
  concatenating temp files become list operations on the lines.
-/

namespace CreateMetagenomes

/-- State of the host-language pseudorandom generator (`random` module),
modelled as a single natural number. -/
structure RngState where
  val : Nat
  deriving DecidableEq

/-- Model of `random.seed(s)`: a deterministic function from the seed to a
generator state. -/
def seedState (s : Nat) : RngState :=
  ⟨(s + 1) * 2654435761 % 4294967296⟩

/-- The generator state used by `sample_reads`: reseeded when a seed is
given (`random.seed(seed)`), otherwise the ambient global state. -/
def seedInit (seed : Option Nat) (g : RngState) : RngState :=
  match seed with
  | some s => seedState s
  | none => g

/-- Model of `random.randint(lo, hi)`: one generator step, returning a value
in `[lo, hi]` together with the new state. -/
def randint (g : RngState) (lo hi : Nat) : Nat × RngState :=
  let v := (g.val * 1664525 + 1013904223) % 4294967296
  (lo + v % (hi - lo + 1), ⟨v⟩)

/-- Python `set.add`: insert a number into a duplicate-free list if absent. -/
def insSet (x : Nat) (s : List Nat) : List Nat :=
  if x ∈ s then s else x :: s

/-- The inner `for i in range(4)` of `sample_reads`: add the four line
numbers `read_start + 0 .. read_start + 3` to `selected_lines`. -/
def addBlock (rs : Nat) (s : List Nat) : List Nat :=
  insSet (rs + 3) (insSet (rs + 2) (insSet (rs + 1) (insSet rs s)))

/-- `count_reads_in_file`: number of lines divided by 4 (integer division). -/
def count_reads_in_file (lines : List String) : Nat :=
  lines.length / 4

/-- The `while len(selected_lines) < num_reads` loop of `sample_reads`:
repeatedly draw `read_start = random.randint(0, total_reads - 1) * 4` and
add the 4-line block, until the set of selected line numbers has size at
least `num_reads` (note: the Python condition compares the number of
selected LINES with `num_reads`).  `fuel` totalises the loop. -/
def sampleSelection (total n : Nat) (fuel : Nat) (g : RngState) (sel : List Nat) :
    List Nat × RngState :=
  match fuel with
  | 0 => (sel, g)
  | Nat.succ fuel' =>
    if sel.length < n then
      let rg := randint g 0 (total - 1)
      sampleSelection total n fuel' rg.2 (addBlock (rg.1 * 4) sel)
    else (sel, g)

/-- `sample_reads(input_file, output_file, num_reads, seed)`: returns the
lines written to the output file, the returned read count, and the
resulting generator state. -/
def sample_reads (input : List String) (num_reads : Nat) (seed : Option Nat)
    (g : RngState) (fuel : Nat) : List String × Nat × RngState :=
  let g0 := seedInit seed g
  let total := count_reads_in_file input
  if num_reads ≥ total then
    (input, total, g0)
  else
    let sg := sampleSelection total num_reads fuel g0 []
    ((input.enum.filter (fun p => decide (p.1 ∈ sg.1))).map Prod.snd,
      sg.1.length / 4, sg.2)

/-- The set of line numbers selected by `sample_reads` in its sampling
branch (the value of `selected_lines` after the loop). -/
def sampleIndices (input : List String) (num_reads : Nat) (seed : Option Nat)
    (g : RngState) (fuel : Nat) : List Nat :=
  (sampleSelection (count_reads_in_file input) num_reads fuel (seedInit seed g) []).1

/-- Idealized form of `int(total_reads * ratio)` of `create_metagenome`,
following the spec's words: the floor of the exact rational product.  The
bit-exact binary64 model of the same source expression is `pyGroupReads`
below; the two agree whenever the float product rounds to the exact
product — true at every input exercised by the composer theorems in this
file — and disagree e.g. at `totalReads = 90`, `ratio = 0.7` (see C5). -/
def groupReads (total_reads : Nat) (ratio : ℚ) : Nat :=
  (⌊(total_reads : ℚ) * ratio⌋).toNat

/-- `group_reads // len(files) if files else 0` of `create_metagenome`. -/
def readsPerSource (gReads : Nat) (numSources : Nat) : Nat :=
  if numSources ≠ 0 then gReads / numSources else 0

/-! ### Bit-exact model of the Python float arithmetic in the quota

`total_reads * euk_ratio` is evaluated by Python in IEEE-754 binary64:
the int is converted to a double, multiplied by the ratio double with one
rounding (round to nearest, ties to even), and `int()` truncates toward
zero.  Every value is a nonnegative dyadic rational `m * 2^e`, so the
arithmetic is modelled exactly on such pairs. -/

/-- A nonnegative binary64 floating-point value, as a dyadic rational
`m * 2^e`. -/
structure Fp where
  m : Nat
  e : Int
  deriving DecidableEq

/-- Auxiliary structural recursion for `bitLen` (first argument is fuel). -/
def bitLenAux : Nat → Nat → Nat
  | 0, _ => 0
  | Nat.succ fuel, n => if n = 0 then 0 else bitLenAux fuel (n / 2) + 1

/-- Number of binary digits of a natural number (`⌊log2 n⌋ + 1` for
`n > 0`, and `0` for `0`); structurally recursive so that the kernel can
evaluate it. -/
def bitLen (n : Nat) : Nat := bitLenAux n n

/-- The floor of log2 of `a / b` for `a, b > 0`: the unique `E` with
`2^E ≤ a/b < 2^(E+1)`. -/
def floorLog2 (a b : Nat) : Int :=
  let d : Int := (bitLen a : Int) - (bitLen b : Int)
  if 0 ≤ d then
    if b * 2 ^ d.toNat ≤ a then d else d - 1
  else
    if b ≤ a * 2 ^ (-d).toNat then d else d - 1

/-- The nearest binary64 value to `a / b` (`b > 0`), rounding ties to
even: the nearest integer multiple of the quantum `2^max(E - 52, -1074)`
where `E` is the binade of `a / b` (the clamp at `-1074` covers
subnormals).  Overflow to infinity is not modelled; every quantity in this
program is far below `2^1024`. -/
def roundToDouble (a b : Nat) : Fp :=
  if a = 0 then ⟨0, 0⟩
  else
    let E := floorLog2 a b
    let qe := max (E - 52) (-1074)
    let A := if 0 ≤ qe then a else a * 2 ^ (-qe).toNat
    let B := if 0 ≤ qe then b * 2 ^ qe.toNat else b
    let m0 := A / B
    let r := A % B
    let m := if 2 * r < B then m0
      else if B < 2 * r then m0 + 1
      else if m0 % 2 = 0 then m0 else m0 + 1
    ⟨m, qe⟩

/-- Round a dyadic value `m * 2^e` to binary64. -/
def roundDyadic (m : Nat) (e : Int) : Fp :=
  if 0 ≤ e then roundToDouble (m * 2 ^ e.toNat) 1 else roundToDouble m (2 ^ (-e).toNat)

/-- IEEE-754 binary64 multiplication: the exact product, rounded once. -/
def fpMul (x y : Fp) : Fp := roundDyadic (x.m * y.m) (x.e + y.e)

/-- Conversion of a Python int to a double (rounds when above `2^53`). -/
def natToFp (t : Nat) : Fp := roundToDouble t 1

/-- Python `int(x)` on a nonnegative double: truncation toward zero. -/
def truncFp (x : Fp) : Nat :=
  if 0 ≤ x.e then x.m * 2 ^ x.e.toNat else x.m / 2 ^ (-x.e).toNat

/-- Bit-exact model of the source's `int(total_reads * ratio)`: the int is
converted to binary64, multiplied by the ratio double with one IEEE
rounding, and the result truncated toward zero. -/
def pyGroupReads (t : Nat) (r : Fp) : Nat := truncFp (fpMul (natToFp t) r)

/-- The binary64 double denoted by the Python literal `0.7`
(its value is `6305039478318694 * 2^-53 = 0.6999999999999999555...`). -/
def d07 : Fp := roundToDouble 7 10

/-- The binary64 double denoted by the Python literal `0.3`. -/
def d03 : Fp := roundToDouble 3 10

/-- One group loop of `create_metagenome`: for each organism's read file,
if the per-source quota is positive, sample that many reads with
`seed = replicate_num` and append the sampled lines to the output. -/
def groupContribution (files : List (String × List String)) (quota rep fuel : Nat)
    (acc : List String) (g : RngState) : List String × RngState :=
  match files with
  | [] => (acc, g)
  | (_, file) :: rest =>
    if 0 < quota then
      let s := sample_reads file quota (some rep) g fuel
      groupContribution rest quota rep fuel (acc ++ s.1) s.2.2
    else
      groupContribution rest quota rep fuel acc g

/-- `create_metagenome(euk_files, phage_files, euk_ratio, phage_ratio,
output_dir, replicate_num, total_reads)`: returns the lines of the combined
output file and the final read count obtained by re-counting that file. -/
def create_metagenome (euk_files phage_files : List (String × List String))
    (euk_ratio phage_ratio : ℚ) (replicate_num : Nat) (total_reads : Nat)
    (g : RngState) (fuel : Nat) : List String × Nat :=
  let euk_reads := groupReads total_reads euk_ratio
  let phage_reads := groupReads total_reads phage_ratio
  let reads_per_euk := readsPerSource euk_reads euk_files.length
  let reads_per_phage := readsPerSource phage_reads phage_files.length
  let e := groupContribution euk_files reads_per_euk replicate_num fuel [] g
  let p := groupContribution phage_files reads_per_phage replicate_num fuel e.1 e.2
  (p.1, count_reads_in_file p.1)

/-! ### Concrete FASTQ sources used as witnesses and counterexamples -/

/-- A one-record (4-line) FASTQ source. -/
def l4 : List String := ["@r0", "ACGT", "+", "IIII"]

/-- A two-record (8-line) FASTQ source. -/
def l8 : List String := ["@r0", "ACGT", "+", "IIII", "@r1", "TTTT", "+", "IIII"]

/-- Another two-record FASTQ source with different content but the same
record count as `l8`. -/
def l8b : List String := ["@s0", "GGGG", "+", "JJJJ", "@s1", "CCCC", "+", "JJJJ"]

/-- A three-record (12-line) FASTQ source. -/
def l12 : List String :=
  ["@r0", "ACGT", "+", "IIII", "@r1", "TTTT", "+", "IIII", "@r2", "AAAA", "+", "IIII"]

/-! ### Predicates about the selected-line set -/

/-- A selection of line numbers is block-closed when, with every selected
line, the whole 4-aligned 4-line block it belongs to is selected. -/
def blockClosed (sel : List Nat) : Prop :=
  ∀ x ∈ sel, ∀ i, i < 4 → x / 4 * 4 + i ∈ sel

/-- Number of 4-aligned block start lines (distinct selected records) in a
selection of line numbers. -/
def recordStarts (sel : List Nat) : Nat :=
  sel.countP (fun x => x % 4 == 0)

/-- Invariant maintained by the `selected_lines` set of `sample_reads`:
no duplicates, block-closed, all lines within the first `total` records,
and the size is four times the number of selected records. -/
def SelInv (total : Nat) (sel : List Nat) : Prop :=
  sel.Nodup ∧ blockClosed sel ∧ (∀ x ∈ sel, x < total * 4) ∧
    sel.length = 4 * recordStarts sel

/-! ### Helper lemmas -/

lemma insSet_of_mem {x : Nat} {s : List Nat} (h : x ∈ s) : insSet x s = s := by
  simp [insSet, h]

lemma insSet_of_not_mem {x : Nat} {s : List Nat} (h : x ∉ s) : insSet x s = x :: s := by
  simp [insSet, h]

lemma block_mem_of_closed {sel : List Nat} (hcl : blockClosed sel) {r : Nat}
    (hmem : r * 4 ∈ sel) : ∀ i, i < 4 → r * 4 + i ∈ sel := by
  intro i hi
  have h := hcl (r * 4) hmem i hi
  have hd : r * 4 / 4 = r := by omega
  rwa [hd] at h

lemma not_mem_block {sel : List Nat} (hcl : blockClosed sel) {r : Nat}
    (hmem : r * 4 ∉ sel) : ∀ i, i < 4 → r * 4 + i ∉ sel := by
  intro i hi hmem'
  apply hmem
  have h := hcl (r * 4 + i) hmem' 0 (by omega)
  have hd : (r * 4 + i) / 4 = r := by omega
  rw [hd] at h
  simpa using h

lemma addBlock_eq_of_mem {sel : List Nat} (hcl : blockClosed sel) {r : Nat}
    (hmem : r * 4 ∈ sel) : addBlock (r * 4) sel = sel := by
  have h1 := block_mem_of_closed hcl hmem 1 (by omega)
  have h2 := block_mem_of_closed hcl hmem 2 (by omega)
  have h3 := block_mem_of_closed hcl hmem 3 (by omega)
  unfold addBlock
  rw [insSet_of_mem hmem, insSet_of_mem h1, insSet_of_mem h2, insSet_of_mem h3]

lemma addBlock_eq_of_not_mem {sel : List Nat} (hcl : blockClosed sel) {r : Nat}
    (hmem : r * 4 ∉ sel) :
    addBlock (r * 4) sel = (r * 4 + 3) :: (r * 4 + 2) :: (r * 4 + 1) :: r * 4 :: sel := by
  have hni := not_mem_block hcl hmem
  have h1 : r * 4 + 1 ∉ r * 4 :: sel := by
    simp only [List.mem_cons, not_or]
    exact ⟨by omega, hni 1 (by omega)⟩
  have h2 : r * 4 + 2 ∉ (r * 4 + 1) :: r * 4 :: sel := by
    simp only [List.mem_cons, not_or]
    exact ⟨by omega, by omega, hni 2 (by omega)⟩
  have h3 : r * 4 + 3 ∉ (r * 4 + 2) :: (r * 4 + 1) :: r * 4 :: sel := by
    simp only [List.mem_cons, not_or]
    exact ⟨by omega, by omega, by omega, hni 3 (by omega)⟩
  unfold addBlock
  rw [insSet_of_not_mem hmem, insSet_of_not_mem h1, insSet_of_not_mem h2,
    insSet_of_not_mem h3]

lemma SelInv_addBlock {total r : Nat} (hr : r < total) {sel : List Nat}
    (h : SelInv total sel) : SelInv total (addBlock (r * 4) sel) := by
  obtain ⟨hnd, hcl, hbd, hlen⟩ := h
  by_cases hmem : r * 4 ∈ sel
  · rw [addBlock_eq_of_mem hcl hmem]
    exact ⟨hnd, hcl, hbd, hlen⟩
  · have hni := not_mem_block hcl hmem
    rw [addBlock_eq_of_not_mem hcl hmem]
    have hmemL : ∀ i, i < 4 →
        r * 4 + i ∈ (r * 4 + 3) :: (r * 4 + 2) :: (r * 4 + 1) :: r * 4 :: sel := by
      intro i hi
      interval_cases i <;> simp [List.mem_cons]
    refine ⟨?_, ?_, ?_, ?_⟩
    · refine List.Nodup.cons ?_ (List.Nodup.cons ?_ (List.Nodup.cons ?_
        (List.Nodup.cons hmem hnd)))
      · simp only [List.mem_cons, not_or]
        exact ⟨by omega, by omega, by omega, hni 3 (by omega)⟩
      · simp only [List.mem_cons, not_or]
        exact ⟨by omega, by omega, hni 2 (by omega)⟩
      · simp only [List.mem_cons, not_or]
        exact ⟨by omega, hni 1 (by omega)⟩
    · intro x hx i hi
      simp only [List.mem_cons] at hx
      rcases hx with h | h | h | h | h
      · have hd : x / 4 * 4 = r * 4 := by omega
        rw [hd]
        exact hmemL i hi
      · have hd : x / 4 * 4 = r * 4 := by omega
        rw [hd]
        exact hmemL i hi
      · have hd : x / 4 * 4 = r * 4 := by omega
        rw [hd]
        exact hmemL i hi
      · have hd : x / 4 * 4 = r * 4 := by omega
        rw [hd]
        exact hmemL i hi
      · have hin := hcl x h i hi
        exact List.mem_cons_of_mem _ (List.mem_cons_of_mem _ (List.mem_cons_of_mem _
          (List.mem_cons_of_mem _ hin)))
    · intro x hx
      simp only [List.mem_cons] at hx
      rcases hx with h | h | h | h | h
      · omega
      · omega
      · omega
      · omega
      · exact hbd x h
    · have e3 : (r * 4 + 3) % 4 = 3 := by omega
      have e2 : (r * 4 + 2) % 4 = 2 := by omega
      have e1 : (r * 4 + 1) % 4 = 1 := by omega
      have e0 : r * 4 % 4 = 0 := by omega
      simp [recordStarts, List.countP_cons, e0, e1, e2, e3] at hlen ⊢
      omega

lemma SelInv_nil (total : Nat) : SelInv total [] := by
  refine ⟨List.nodup_nil, ?_, ?_, ?_⟩ <;> simp [blockClosed, recordStarts]

lemma randint_lt (g : RngState) (total : Nat) (ht : 0 < total) :
    (randint g 0 (total - 1)).1 < total := by
  simp only [randint]
  have h : total - 1 - 0 + 1 = total := by omega
  rw [h]
  simpa using Nat.mod_lt _ ht

lemma SelInv_sampleSelection (total n : Nat) (ht : 0 < total) :
    ∀ (fuel : Nat) (g : RngState) (sel : List Nat), SelInv total sel →
      SelInv total (sampleSelection total n fuel g sel).1 := by
  intro fuel
  induction fuel with
  | zero => intro g sel h; exact h
  | succ fuel ih =>
    intro g sel h
    simp only [sampleSelection]
    split_ifs with hc
    · exact ih _ _ (SelInv_addBlock (randint_lt g total ht) h)
    · exact h

lemma countP_range_mem (sel : List Nat) (len : Nat) (hnd : sel.Nodup)
    (hb : ∀ x ∈ sel, x < len) :
    (List.range len).countP (fun i => decide (i ∈ sel)) = sel.length := by
  rw [List.countP_eq_length_filter]
  have hnd2 : ((List.range len).filter (fun i => decide (i ∈ sel))).Nodup :=
    (List.nodup_range len).filter _
  have hfin : ((List.range len).filter (fun i => decide (i ∈ sel))).toFinset
      = sel.toFinset := by
    ext a
    simp only [List.mem_toFinset, List.mem_filter, List.mem_range, decide_eq_true_eq]
    exact ⟨fun h => h.2, fun h => ⟨hb a h, h⟩⟩
  calc ((List.range len).filter (fun i => decide (i ∈ sel))).length
      = ((List.range len).filter (fun i => decide (i ∈ sel))).toFinset.card :=
        (List.toFinset_card_of_nodup hnd2).symm
    _ = sel.toFinset.card := by rw [hfin]
    _ = sel.length := List.toFinset_card_of_nodup hnd

lemma length_output_eq (l : List String) (sel : List Nat) (hnd : sel.Nodup)
    (hb : ∀ x ∈ sel, x < l.length) :
    ((l.enum.filter (fun p => decide (p.1 ∈ sel))).map Prod.snd).length = sel.length := by
  rw [List.length_map, ← List.countP_eq_length_filter]
  have h1 : l.enum.countP (fun p => decide (p.1 ∈ sel))
      = (l.enum.map Prod.fst).countP (fun i => decide (i ∈ sel)) := by
    rw [List.countP_map]
    rfl
  have h2 : l.enum.map Prod.fst = List.range l.length := by
    rw [List.enum_eq_enumFrom, List.enumFrom_map_fst, List.range_eq_range']
  rw [h1, h2, countP_range_mem sel l.length hnd hb]

lemma groupContribution_zero_quota (files : List (String × List String))
    (rep fuel : Nat) (acc : List String) (g : RngState) :
    groupContribution files 0 rep fuel acc g = (acc, g) := by
  induction files with
  | nil => rfl
  | cons hd tl ih =>
    obtain ⟨nm, f⟩ := hd
    simpa [groupContribution] using ih

/-! ### C1: exact-count sampling -/

/-- C1: the claim that `sample(source, count, seed)` returns exactly `count`
records in the branch `0 ≤ count < len(source)` fails on the code.  The
Python loop condition `while len(selected_lines) < num_reads` compares the
number of selected LINES (4 per record) with the requested number of
RECORDS, so the loop stops as soon as `ceil(count / 4)` records are
selected.  Concretely, sampling `count = 2` records from a 3-record source
returns 1 record (4 output lines), not 2 — the function's own docstring
("Sample a specific number of reads") and the caller's progress messages
show that `count` records were intended, so this is a code bug. -/
theorem sample_reads_undercounts_requested_reads :
    (sample_reads l12 2 (some 1) ⟨0⟩ 10).2.1 = 1 ∧
    (sample_reads l12 2 (some 1) ⟨0⟩ 10).2.1 ≠ 2 ∧
    (sample_reads l12 2 (some 1) ⟨0⟩ 10).1.length = 4 :=
  ⟨by decide, by decide, by decide⟩

/-! ### C2: full-copy branch -/

/-- C2: if `count ≥ len(source)`, `sample_reads` returns all records of the
source unmodified and in original order (the whole line list is copied),
`actualCount = len(source)`, and no pseudorandom draw is performed: the
returned generator state is exactly the post-seeding state `seedInit`,
untouched by any `randint` step. -/
theorem sample_reads_full_copy (input : List String) (n : Nat) (s : Option Nat)
    (g : RngState) (fuel : Nat) (hne : input ≠ [])
    (h : count_reads_in_file input ≤ n) :
    sample_reads input n s g fuel = (input, count_reads_in_file input, seedInit s g) := by
  simp only [sample_reads]
  split_ifs with hc
  · rfl
  · exact absurd h hc

/-- C2 witness: requesting 1 read from the one-record source `l4` copies it
verbatim. -/
theorem sample_reads_full_copy_witness :
    l4 ≠ [] ∧ count_reads_in_file l4 ≤ 1 ∧
    sample_reads l4 1 (some 0) ⟨0⟩ 5 = (l4, count_reads_in_file l4, seedInit (some 0) ⟨0⟩) :=
  ⟨by decide, by decide, sample_reads_full_copy l4 1 (some 0) ⟨0⟩ 5 (by decide) (by decide)⟩

/-! ### C3: empty source with positive count -/

/-- C3 counterexample: the claim that `sample` signals an error when the
source is empty and `count > 0` fails on the code.  With an empty source,
`total_reads = 0` and the test `num_reads >= total_reads` is true, so
`sample_reads` takes the full-copy branch and returns a normal result — the
empty line list with `actualCount = 0` — instead of signaling any error. -/
theorem sample_reads_empty_source_returns_normally :
    sample_reads [] 5 (some 0) ⟨0⟩ 10 = ([], 0, seedState 0) := by decide

/-- C3 amended: for an empty source and ANY requested count, `sample_reads`
takes the full-copy branch and returns the empty record list with
`actualCount = 0` and the post-seeding generator state; no error is
signaled. -/
theorem sample_reads_empty_source_copies (n : Nat) (s : Option Nat) (g : RngState)
    (fuel : Nat) :
    sample_reads [] n s g fuel = ([], 0, seedInit s g) := by
  simp only [sample_reads, count_reads_in_file, List.length_nil, Nat.zero_div]
  rw [if_pos (Nat.zero_le n)]

/-! ### C4: determinism under a fixed seed -/

/-- C4: for a fixed `(source, count, seed)` with the seed present, the
result of `sample_reads` is identical on every invocation, whatever the
ambient generator state was before the call: `random.seed(seed)` makes the
pseudorandom sequence a function of the seed alone, so the selected index
set and the emitted records coincide between any two runs. -/
theorem sample_reads_deterministic (input : List String) (n s : Nat)
    (g1 g2 : RngState) (fuel : Nat) :
    sample_reads input n (some s) g1 fuel = sample_reads input n (some s) g2 fuel := rfl

/-! ### C5: composer quota arithmetic -/

set_option maxRecDepth 4000 in
/-- C5 counterexample: the claim that `create_metagenome` computes
`readsA = floor(totalReads * ratioA)` fails on the code at a reachable
input.  Python evaluates `int(total_reads * euk_ratio)` in binary64
floating point: for `totalReads = 90` and the ratio literal `0.7` the
float product is `62.99999999999999...` and `int` truncates it to 62,
while the exact floor of `90 * 7/10` — the claim's formula, embodied by
`groupReads` — is 63. -/
theorem quota_is_not_exact_floor :
    pyGroupReads 90 d07 = 62 ∧ groupReads 90 (7/10) = 63 :=
  ⟨by decide, by norm_num [groupReads]; rfl⟩

set_option maxRecDepth 4000 in
/-- C5 amended: `create_metagenome` computes each group read budget as the
truncation of the IEEE-754 binary64 product `totalReads * ratio`
(`pyGroupReads`), which can fall one below the exact
`floor(totalReads * ratio)`, and the per-source quota as even integer
division of the budget by the group size, 0 for an empty group
(`readsPerSource`).  At the claim's instance the float product rounds to
the exact product, so `totalReads = 100000`, `ratioA = 0.7` with 3 sources
give `readsA = 70000` — agreeing with the exact floor — and
`perSourceA = 23333`. -/
theorem composer_quota_float_arithmetic :
    pyGroupReads 100000 d07 = 70000 ∧
    pyGroupReads 100000 d03 = 30000 ∧
    groupReads 100000 (7/10) = 70000 ∧
    readsPerSource (pyGroupReads 100000 d07) 3 = 23333 ∧
    readsPerSource (pyGroupReads 100000 d07) 0 = 0 := by
  have h7 : pyGroupReads 100000 d07 = 70000 := by decide
  have hq : groupReads 100000 (7/10) = 70000 := by norm_num [groupReads]; rfl
  refine ⟨h7, by decide, hq, ?_, ?_⟩ <;> rw [h7] <;> norm_num [readsPerSource]

/-! ### C6: realized group totals -/

/-- C6: the claim that each group realizes between `readsA - (|group| - 1)`
and `readsA` reads (whenever every source has at least its quota of
records) fails on the code, for the same reason as C1.  With one group-A
source of 3 records, `totalReads = 2` and `ratioA = 1`, the quota is 2 and
the source has 3 ≥ 2 records, so the claim requires the artifact to hold
exactly 2 records; the code's artifact holds 1 record. -/
theorem compose_undercounts_group_total :
    (create_metagenome [("euk1", l12)] [] 1 0 1 2 ⟨0⟩ 10).2 = 1 ∧
    (create_metagenome [("euk1", l12)] [] 1 0 1 2 ⟨0⟩ 10).2 ≠ 2 := by
  have hq : groupReads 2 1 = 2 := by norm_num [groupReads]; rfl
  have hq0 : groupReads 2 0 = 0 := by norm_num [groupReads]
  constructor <;>
  · simp only [create_metagenome, hq, hq0]
    decide

/-! ### C8: zero-quota sources and empty groups -/

/-- C8: sources whose per-source quota is 0 contribute zero records to the
artifact and are skipped without error, in either group: if the phage
(group-B) quota is 0, the composition equals the composition with the
phage group removed, and symmetrically if the eukaryote (group-A) quota is
0 — whatever the other group's quota is — the composition equals the
composition with the eukaryote group removed.  An empty group always has
quota 0 by `readsPerSource`, so it contributes nothing, and both sides
return normally (the function is total; no error path is taken). -/
theorem zero_quota_group_contributes_nothing (euk phage : List (String × List String))
    (er pr : ℚ) (rep t : Nat) (g : RngState) (fuel : Nat) :
    (readsPerSource (groupReads t pr) phage.length = 0 →
      create_metagenome euk phage er pr rep t g fuel =
        create_metagenome euk [] er pr rep t g fuel) ∧
    (readsPerSource (groupReads t er) euk.length = 0 →
      create_metagenome euk phage er pr rep t g fuel =
        create_metagenome [] phage er pr rep t g fuel) := by
  constructor
  · intro h
    simp only [create_metagenome, List.length_nil, h, groupContribution_zero_quota]
    have h0 : readsPerSource (groupReads t pr) 0 = 0 := by simp [readsPerSource]
    rw [h0, groupContribution_zero_quota]
  · intro h
    simp only [create_metagenome, List.length_nil, h, groupContribution_zero_quota]
    have h0 : readsPerSource (groupReads t er) 0 = 0 := by simp [readsPerSource]
    rw [h0, groupContribution_zero_quota]

/-- C8 witness: with ratio 0 on one side and ratio 1 on the other (so the
other group's quota is positive), a zero-quota one-source eukaryote group
contributes nothing, and likewise a zero-quota one-source phage group. -/
theorem zero_quota_group_contributes_nothing_witness :
    readsPerSource (groupReads 1 0) 1 = 0 ∧
    create_metagenome [("e", l4)] [("p", l4)] 0 1 1 1 ⟨0⟩ 5 =
      create_metagenome [] [("p", l4)] 0 1 1 1 ⟨0⟩ 5 ∧
    create_metagenome [("e", l4)] [("p", l4)] 1 0 1 1 ⟨0⟩ 5 =
      create_metagenome [("e", l4)] [] 1 0 1 1 ⟨0⟩ 5 := by
  have h : readsPerSource (groupReads 1 0) 1 = 0 := by
    norm_num [groupReads, readsPerSource]
  exact ⟨h,
    (zero_quota_group_contributes_nothing [("e", l4)] [("p", l4)] 0 1 1 1 ⟨0⟩ 5).2 h,
    (zero_quota_group_contributes_nothing [("e", l4)] [("p", l4)] 1 0 1 1 ⟨0⟩ 5).1 h⟩

/-! ### C9: whole-record selection invariant -/

/-- C9: in the random-sampling branch (`count < len(source)`), the set of
selected line numbers built by `sample_reads` is a duplicate-free union of
complete 4-aligned 4-line blocks (`blockClosed`), the written output
consists of whole records — its line count equals the size of the selected
set and is a multiple of 4 — and the returned count equals the number of
distinct records selected (`recordStarts`). -/
theorem sampling_selects_whole_records (input : List String) (n : Nat)
    (s : Option Nat) (g : RngState) (fuel : Nat)
    (h : n < count_reads_in_file input) :
    (sampleIndices input n s g fuel).Nodup ∧
    blockClosed (sampleIndices input n s g fuel) ∧
    (sample_reads input n s g fuel).1.length = (sampleIndices input n s g fuel).length ∧
    (sample_reads input n s g fuel).1.length % 4 = 0 ∧
    (sample_reads input n s g fuel).2.1 = recordStarts (sampleIndices input n s g fuel) := by
  have ht : 0 < count_reads_in_file input := Nat.lt_of_le_of_lt (Nat.zero_le n) h
  have hinv : SelInv (count_reads_in_file input) (sampleIndices input n s g fuel) := by
    unfold sampleIndices
    exact SelInv_sampleSelection _ n ht fuel _ _ (SelInv_nil _)
  obtain ⟨hnd, hcl, hbd, hlen⟩ := hinv
  have hb' : ∀ x ∈ sampleIndices input n s g fuel, x < input.length := by
    intro x hx
    have h1 := hbd x hx
    have h2 : count_reads_in_file input * 4 ≤ input.length := by
      unfold count_reads_in_file
      omega
    omega
  have hsr : sample_reads input n s g fuel =
      ((input.enum.filter
          (fun p => decide (p.1 ∈ sampleIndices input n s g fuel))).map Prod.snd,
        (sampleIndices input n s g fuel).length / 4,
        (sampleSelection (count_reads_in_file input) n fuel (seedInit s g) []).2) := by
    simp only [sample_reads, sampleIndices]
    rw [if_neg (by omega : ¬ n ≥ count_reads_in_file input)]
  rw [hsr]
  have hout := length_output_eq input (sampleIndices input n s g fuel) hnd hb'
  refine ⟨hnd, hcl, hout, ?_, ?_⟩
  · show ((input.enum.filter
        (fun p => decide (p.1 ∈ sampleIndices input n s g fuel))).map Prod.snd).length % 4 = 0
    rw [hout, hlen]
    omega
  · show (sampleIndices input n s g fuel).length / 4
        = recordStarts (sampleIndices input n s g fuel)
    rw [hlen]
    omega

/-- C9 witness: sampling 1 read from the two-record source `l8`. -/
theorem sampling_selects_whole_records_witness :
    1 < count_reads_in_file l8 ∧
    ((sampleIndices l8 1 (some 1) ⟨0⟩ 5).Nodup ∧
     blockClosed (sampleIndices l8 1 (some 1) ⟨0⟩ 5) ∧
     (sample_reads l8 1 (some 1) ⟨0⟩ 5).1.length = (sampleIndices l8 1 (some 1) ⟨0⟩ 5).length ∧
     (sample_reads l8 1 (some 1) ⟨0⟩ 5).1.length % 4 = 0 ∧
     (sample_reads l8 1 (some 1) ⟨0⟩ 5).2.1 = recordStarts (sampleIndices l8 1 (some 1) ⟨0⟩ 5)) :=
  ⟨by decide, sampling_selects_whole_records l8 1 (some 1) ⟨0⟩ 5 (by decide)⟩

/-! ### C10: correlated sampling across sources of one composition -/

/-- C10: inside `create_metagenome`, every sampler invocation is seeded
with the replicate index (`seed = some replicate_num` in both group loops,
see `groupContribution`), so the selected line-number set depends only on
the source's total record count, the quota and the replicate — not on the
source's contents or on the ambient generator state.  Hence two sources in
the same composition with equal record counts and equal quotas get the
identical set of selected indices. -/
theorem same_replicate_selects_same_indices (f1 f2 : List String)
    (q rep fuel : Nat) (g1 g2 : RngState)
    (h : count_reads_in_file f1 = count_reads_in_file f2) :
    sampleIndices f1 q (some rep) g1 fuel = sampleIndices f2 q (some rep) g2 fuel := by
  simp only [sampleIndices, seedInit, h]

/-- C10 witness: two sources with different contents but equal record
counts, sampled with the same quota and replicate seed from different
ambient generator states, select the same index set. -/
theorem same_replicate_selects_same_indices_witness :
    count_reads_in_file l8 = count_reads_in_file l8b ∧
    sampleIndices l8 1 (some 1) ⟨0⟩ 5 = sampleIndices l8b 1 (some 1) ⟨7⟩ 5 :=
  ⟨by decide, same_replicate_selects_same_indices l8 l8b 1 1 5 ⟨0⟩ ⟨7⟩ (by decide)⟩

end CreateMetagenomes
